import Mathlib

/-!
Verification of the R2X Sienna exporter (`src/r2x/exporter/sienna.py`).

The exporter turns an in-memory grid model into flat CSV rows plus a JSON
time-series index.  This file gives a shallow embedding of the data model and
of the operations the claims are about: Python dictionaries become association
lists over a `Value` type, dict mutation becomes an in-place `Record.set`,
fallible code (KeyError, failed assertions, unsupported variants) returns
`Option`/`Except`, and numeric values are rationals.

Functions of the repository that live outside the exporter module
(`r2x.exporter.utils` pipeline stages, the CSV writer of
`r2x.exporter.handler`, the configuration models) are modelled from the
specification; each such definition carries a doc comment starting with
`Modelled from the spec:`.
-/

namespace R2X

/-- Embedding of the pydantic `function_data` objects carried inside an
operation cost: optional polynomial coefficients plus an optional piecewise
point list.  A field being `some` models the field name appearing in
`model_fields_set`. -/
structure FunctionData where
  constant_term : Option ℚ
  proportional_term : Option ℚ
  quadratic_term : Option ℚ
  points : Option (List (ℚ × ℚ))
deriving DecidableEq, Repr

/-- Embedding of the `variable` sub-object of an operation cost.
`vom_cost` is `some fd` when `haskey(variable, ["vom_cost", "function_data"])`
holds; `fuel_cost = some none` models the key being present with value `None`,
`some (some q)` a present numeric value, `none` an absent key;
`value_curve` is `some fd` when `haskey(variable, ["value_curve",
"function_data"])` holds. -/
structure VariableCost where
  vom_cost : Option FunctionData
  fuel_cost : Option (Option ℚ)
  value_curve : Option FunctionData
deriving DecidableEq, Repr

/-- Embedding of the `operation_cost` dictionary: an optional `variable`
sub-object and the `variable_type` discriminator string. -/
structure OperationCost where
  «variable» : Option VariableCost
  variable_type : String
deriving DecidableEq, Repr

/-- A value stored in a component record: plain scalars, `None`, an enum
member (whose `.name` is the carried string), a unit-bearing pint quantity
(magnitude plus unit name), or a structured operation-cost object. -/
inductive Value where
  | str (s : String)
  | num (q : ℚ)
  | bool (b : Bool)
  | none
  | enumV (name : String)
  | quantity (magnitude : ℚ) (unit : String)
  | opCost (oc : OperationCost)
deriving DecidableEq, Repr

/-- Python truthiness of a value: `None`, `False`, `0` and `""` are falsy. -/
def Value.truthy : Value → Bool
  | .str s => !s.isEmpty
  | .num q => q != 0
  | .bool b => b
  | .none => false
  | .enumV _ => true
  | .quantity _ _ => true
  | .opCost _ => true

/-- A Python dictionary with string keys, embedded as an association list in
insertion order. -/
abbrev Record := List (String × Value)

/-- Dictionary read `d[k]` / `d.get(k)`: first entry with the given key. -/
def Record.lookup : Record → String → Option Value
  | [], _ => Option.none
  | (k', v') :: rest, k => if k' = k then some v' else Record.lookup rest k

/-- Dictionary write `d[k] = v`: replace the value in place when the key is
present, append the pair otherwise (Python dict update semantics). -/
def Record.set : Record → String → Value → Record
  | [], k, v => [(k, v)]
  | (k', v') :: rest, k, v =>
      if k' = k then (k, v) :: rest else (k', v') :: Record.set rest k v

theorem Record.lookup_set_self (r : Record) (k : String) (v : Value) :
    (Record.set r k v).lookup k = some v := by
  induction r with
  | nil => simp [Record.set, Record.lookup]
  | cons kv rest ih =>
      obtain ⟨k₀, v₀⟩ := kv
      by_cases h : k₀ = k
      · simp [Record.set, h, Record.lookup]
      · simp [Record.set, h, Record.lookup, ih]

theorem Record.lookup_set_ne (r : Record) (k k' : String) (v : Value)
    (h : k' ≠ k) : (Record.set r k v).lookup k' = r.lookup k' := by
  have hne : ∀ a : String, a = k → a = k' → False := by
    intro a h1 h2
    exact h (h2 ▸ h1 ▸ rfl)
  induction r with
  | nil =>
      simp only [Record.set, Record.lookup]
      rw [if_neg (fun hh : k = k' => hne k rfl hh)]
  | cons kv rest ih =>
      obtain ⟨k₀, v₀⟩ := kv
      by_cases hk : k₀ = k
      · simp only [Record.set, if_pos hk, Record.lookup]
        rw [if_neg (fun hh : k = k' => hne k rfl hh),
            if_neg (fun hh : k₀ = k' => hne k₀ hk hh)]
      · simp only [Record.set, if_neg hk, Record.lookup]
        by_cases hk' : k₀ = k'
        · rw [if_pos hk', if_pos hk']
        · rw [if_neg hk', if_neg hk', ih]

theorem Record.lookup_set (r : Record) (k k' : String) (v : Value) :
    (Record.set r k v).lookup k' = if k = k' then some v else r.lookup k' := by
  by_cases h : k = k'
  · subst h
    rw [Record.lookup_set_self, if_pos rfl]
  · rw [Record.lookup_set_ne _ _ _ _ (fun hh => h hh.symm), if_neg h]

/-- Lookup in an association list of plain strings (used for property maps,
unit maps and reserve maps). -/
def assocS {β : Type} : List (String × β) → String → Option β
  | [], _ => Option.none
  | (k', v') :: rest, k => if k' = k then some v' else assocS rest k

/-! ### Decimal rendering of loop indices

The source builds column names with Python f-strings such as
`f"output_point_{i}"`; the interpolation renders `i` in decimal.  `natToDec`
is that decimal rendering, defined with explicit fuel so that it evaluates by
kernel reduction, and proved injective through `Nat.digits`. -/

/-- Decimal digit characters of `n`, most significant first, with fuel. -/
def natToDecAux : ℕ → ℕ → List Char
  | 0, _ => []
  | fuel + 1, n =>
      if n < 10 then [Nat.digitChar n]
      else natToDecAux fuel (n / 10) ++ [Nat.digitChar (n % 10)]

/-- Decimal rendering of a natural number, as produced by `f"{i}"`. -/
def natToDec (n : ℕ) : String := String.mk (natToDecAux (n + 1) n)

theorem natToDecAux_eq_digits (fuel n : ℕ) (h1 : 0 < n) (h2 : n ≤ fuel) :
    natToDecAux fuel n = ((Nat.digits 10 n).map Nat.digitChar).reverse := by
  induction fuel generalizing n with
  | zero => omega
  | succ fuel ih =>
      rw [natToDecAux]
      by_cases hn : n < 10
      · rw [if_pos hn]
        rw [Nat.digits_def' (by norm_num) h1]
        have : n / 10 = 0 := Nat.div_eq_of_lt hn
        rw [this]
        simp [Nat.mod_eq_of_lt hn]
      · rw [if_neg hn]
        have hq : 0 < n / 10 := Nat.div_pos (le_of_not_lt hn) (by norm_num)
        have hq2 : n / 10 ≤ fuel := by
          have : n / 10 < n := Nat.div_lt_self h1 (by norm_num)
          omega
        rw [ih (n / 10) hq hq2]
        rw [Nat.digits_def' (by norm_num) h1]
        simp

theorem digitChar_inj :
    ∀ a : ℕ, a < 10 → ∀ b : ℕ, b < 10 → Nat.digitChar a = Nat.digitChar b → a = b := by
  decide

theorem map_digitChar_inj :
    ∀ l₁ l₂ : List ℕ, (∀ x ∈ l₁, x < 10) → (∀ x ∈ l₂, x < 10) →
      l₁.map Nat.digitChar = l₂.map Nat.digitChar → l₁ = l₂ := by
  intro l₁
  induction l₁ with
  | nil =>
      intro l₂ _ _ h
      cases l₂ with
      | nil => rfl
      | cons b t => simp at h
  | cons a t ih =>
      intro l₂ h1 h2 h
      cases l₂ with
      | nil => simp at h
      | cons b t₂ =>
          simp only [List.map_cons, List.cons.injEq] at h
          have hab : a = b :=
            digitChar_inj a (h1 a (List.mem_cons_self a t)) b
              (h2 b (List.mem_cons_self b t₂)) h.1
          have ht : t = t₂ :=
            ih t₂ (fun x hx => h1 x (List.mem_cons_of_mem _ hx))
              (fun x hx => h2 x (List.mem_cons_of_mem _ hx)) h.2
          rw [hab, ht]

theorem digits_eq_of_natToDec_eq {m n : ℕ} (hm : 0 < m) (hn : 0 < n)
    (h : natToDec m = natToDec n) : Nat.digits 10 m = Nat.digits 10 n := by
  have hd : natToDecAux (m + 1) m = natToDecAux (n + 1) n := by
    have := congrArg String.data h
    simpa [natToDec] using this
  rw [natToDecAux_eq_digits (m + 1) m hm (by omega),
      natToDecAux_eq_digits (n + 1) n hn (by omega)] at hd
  have hmap := congrArg List.reverse hd
  simp only [List.reverse_reverse] at hmap
  exact map_digitChar_inj _ _
    (fun x hx => Nat.digits_lt_base (by norm_num) hx)
    (fun x hx => Nat.digits_lt_base (by norm_num) hx) hmap

theorem natToDec_pos_ne_zero {n : ℕ} (hn : 0 < n) : natToDec n ≠ natToDec 0 := by
  intro h
  have hd : natToDecAux (n + 1) n = natToDecAux 1 0 := by
    have := congrArg String.data h
    simpa [natToDec] using this
  rw [natToDecAux_eq_digits (n + 1) n hn (by omega)] at hd
  have h0 : natToDecAux 1 0 = [Nat.digitChar 0] := by
    simp [natToDecAux]
  rw [h0] at hd
  have hmap := congrArg List.reverse hd
  simp only [List.reverse_reverse, List.reverse_cons, List.reverse_nil,
    List.nil_append] at hmap
  have hdig : Nat.digits 10 n = [0] :=
    map_digitChar_inj _ [0]
      (fun x hx => Nat.digits_lt_base (by norm_num) hx)
      (by intro x hx; simp at hx; omega) hmap
  have hof := Nat.ofDigits_digits 10 n
  rw [hdig] at hof
  simp [Nat.ofDigits] at hof
  omega

theorem natToDec_inj {m n : ℕ} (h : natToDec m = natToDec n) : m = n := by
  rcases Nat.eq_zero_or_pos m with hm | hm <;>
    rcases Nat.eq_zero_or_pos n with hn | hn
  · omega
  · subst hm
    exact absurd h.symm (natToDec_pos_ne_zero hn)
  · subst hn
    exact absurd h (natToDec_pos_ne_zero hm)
  · have hdig := digits_eq_of_natToDec_eq hm hn h
    have h1 := Nat.ofDigits_digits 10 m
    rw [hdig, Nat.ofDigits_digits 10 n] at h1
    exact h1.symm

/-! ### Generic string-key disequalities -/

theorem string_data_append (s t : String) : (s ++ t).data = s.data ++ t.data :=
  String.data_append s t

theorem string_append_right_inj (p a b : String) (h : p ++ a = p ++ b) :
    a = b := by
  have hd := congrArg String.data h
  rw [string_data_append, string_data_append] at hd
  exact String.ext (List.append_cancel_left hd)

theorem string_append_ne_of_take (p q a b : String) (n : ℕ)
    (hp : n ≤ p.data.length) (hq : n ≤ q.data.length)
    (h : p.data.take n ≠ q.data.take n) : p ++ a ≠ q ++ b := by
  intro he
  apply h
  have hd := congrArg String.data he
  rw [string_data_append, string_data_append] at hd
  calc p.data.take n = (p.data ++ a.data).take n :=
        (List.take_append_of_le_length hp).symm
    _ = (q.data ++ b.data).take n := by rw [hd]
    _ = q.data.take n := List.take_append_of_le_length hq

theorem string_eq_append_empty (s : String) : s = s ++ "" := by
  apply String.ext
  rw [string_data_append]
  simp

theorem string_append_ne_const (p a c : String) (n : ℕ)
    (hp : n ≤ p.data.length) (hc : n ≤ c.data.length)
    (h : p.data.take n ≠ c.data.take n) : p ++ a ≠ c := by
  intro he
  exact string_append_ne_of_take p c a "" n hp hc h
    (by rw [← string_eq_append_empty]; exact he)

/-! ### Operation-cost translator (`apply_operation_table_data`,
`_variable_type_parsing`) -/

/-- The column name `f"output_point_{i}"`. -/
def outPointKey (i : ℕ) : String := "output_point_" ++ natToDec i

/-- The column name `f"cost_point_{i}"`. -/
def costPointKey (i : ℕ) : String := "cost_point_" ++ natToDec i

/-- The heat-rate column name of the `FuelCurve` branch:
`"heat_rate_avg_0" if i == 0 else f"heat_rate_incr_{i}"`. -/
def heatRateKey (i : ℕ) : String :=
  if i = 0 then "heat_rate_avg_0" else "heat_rate_incr_" ++ natToDec i

theorem outPointKey_inj {i j : ℕ} (h : i ≠ j) : outPointKey i ≠ outPointKey j :=
  fun he => h (natToDec_inj (string_append_right_inj _ _ _ he))

theorem costPointKey_inj {i j : ℕ} (h : i ≠ j) :
    costPointKey i ≠ costPointKey j :=
  fun he => h (natToDec_inj (string_append_right_inj _ _ _ he))

theorem outPointKey_ne_costPointKey (i j : ℕ) : outPointKey i ≠ costPointKey j :=
  string_append_ne_of_take _ _ _ _ 1 (by decide) (by decide) (by decide)

theorem heat_avg_ne_incr (j : ℕ) :
    ("heat_rate_avg_0" : String) ≠ "heat_rate_incr_" ++ natToDec j := by
  have h := string_append_ne_of_take "heat_rate_avg_0" "heat_rate_incr_" ""
    (natToDec j) 11 (by decide) (by decide) (by decide)
  rw [← string_eq_append_empty] at h
  exact h

theorem heatRateKey_inj {i j : ℕ} (h : i ≠ j) : heatRateKey i ≠ heatRateKey j := by
  unfold heatRateKey
  by_cases hi : i = 0 <;> by_cases hj : j = 0
  · omega
  · rw [if_pos hi, if_neg hj]
    exact heat_avg_ne_incr j
  · rw [if_neg hi, if_pos hj]
    exact (heat_avg_ne_incr i).symm
  · rw [if_neg hi, if_neg hj]
    exact fun he => h (natToDec_inj (string_append_right_inj _ _ _ he))

theorem outPointKey_ne_heatRateKey (i j : ℕ) : outPointKey i ≠ heatRateKey j := by
  unfold heatRateKey
  by_cases hj : j = 0
  · rw [if_pos hj]
    exact string_append_ne_const "output_point_" (natToDec i) "heat_rate_avg_0" 1
      (by decide) (by decide) (by decide)
  · rw [if_neg hj]
    exact string_append_ne_of_take _ _ _ _ 1 (by decide) (by decide) (by decide)

theorem fuel_price_ne_outPointKey (j : ℕ) : ("fuel_price" : String) ≠ outPointKey j :=
  (string_append_ne_const "output_point_" (natToDec j) "fuel_price" 1
    (by decide) (by decide) (by decide)).symm

theorem fuel_price_ne_costPointKey (j : ℕ) : ("fuel_price" : String) ≠ costPointKey j :=
  (string_append_ne_const "cost_point_" (natToDec j) "fuel_price" 1
    (by decide) (by decide) (by decide)).symm

theorem fuel_price_ne_heatRateKey (j : ℕ) : ("fuel_price" : String) ≠ heatRateKey j := by
  unfold heatRateKey
  by_cases hj : j = 0
  · rw [if_pos hj]
    decide
  · rw [if_neg hj]
    exact (string_append_ne_const "heat_rate_incr_" (natToDec j) "fuel_price" 1
      (by decide) (by decide) (by decide)).symm

/-- The `CostCurve` branch of `_variable_type_parsing`: iterate over the
`(x, y)` points with the running index, writing `output_point_i = x` and
`cost_point_i = y`. -/
def costCurveLoop : Record → List (ℚ × ℚ) → ℕ → Record
  | c, [], _ => c
  | c, xy :: rest, i =>
      costCurveLoop
        (Record.set (Record.set c (outPointKey i) (Value.num xy.1))
          (costPointKey i) (Value.num xy.2)) rest (i + 1)

/-- The `FuelCurve` branch of `_variable_type_parsing`: iterate over the
`(x, y)` points, writing `output_point_i = x` and the heat-rate column
(`heat_rate_avg_0` at index 0, `heat_rate_incr_i` otherwise) `= y`. -/
def fuelCurveLoop : Record → List (ℚ × ℚ) → ℕ → Record
  | c, [], _ => c
  | c, xy :: rest, i =>
      fuelCurveLoop
        (Record.set (Record.set c (outPointKey i) (Value.num xy.1))
          (heatRateKey i) (Value.num xy.2)) rest (i + 1)

/-- `_variable_type_parsing(component, cost_dict)`: pull the piecewise points
out of `cost_dict["variable"]["value_curve"]["function_data"].points` and
dispatch on `cost_dict["variable_type"]`; an unrecognized discriminator
raises `NotImplementedError`. -/
def variable_type_parsing (component : Record) (cost_dict : OperationCost) :
    Except String Record :=
  match cost_dict.«variable» with
  | Option.none => .error "KeyError: variable"
  | some var =>
      match var.value_curve with
      | Option.none => .error "KeyError: value_curve"
      | some fd =>
          match fd.points with
          | Option.none => .error "TypeError: points is None"
          | some pts =>
              if cost_dict.variable_type = "CostCurve" then
                .ok (costCurveLoop component pts 0)
              else if cost_dict.variable_type = "FuelCurve" then
                .ok (fuelCurveLoop component pts 0)
              else
                .error ("Type " ++ cost_dict.variable_type ++
                  " variable curve not supported")

/-- `Value` of an optional pydantic attribute: an unset attribute reads as
`None`. -/
def optNum : Option ℚ → Value
  | some q => Value.num q
  | Option.none => Value.none

/-- Conditional write `component[k] = o` performed only when the optional
field `o` is set (the source guards each write with membership of the field
name in `model_fields_set`). -/
def setIfSome (c : Record) (k : String) : Option ℚ → Record
  | some q => Record.set c k (Value.num q)
  | Option.none => c

theorem setIfSome_lookup_ne (c : Record) (k k' : String) (o : Option ℚ)
    (h : k' ≠ k) : Record.lookup (setIfSome c k o) k' = Record.lookup c k' := by
  cases o with
  | none => rfl
  | some q => exact Record.lookup_set_ne _ _ _ _ h

/-- The value-curve step of `apply_operation_table_data`: write
`heat_rate_a0`/`a1`/`a2` for whichever polynomial coefficients appear in
`model_fields_set` (modelled as the field being `some`), then enter
`_variable_type_parsing` when a piecewise point list appears. -/
def opCostCurve (c : Record) (oc : OperationCost) (var : VariableCost) :
    Except String Record :=
  match var.value_curve with
  | Option.none => .ok c
  | some fd =>
      let c3 := setIfSome (setIfSome (setIfSome c "heat_rate_a0" fd.constant_term)
        "heat_rate_a1" fd.proportional_term) "heat_rate_a2" fd.quadratic_term
      match fd.points with
      | some _ => variable_type_parsing c3 oc
      | Option.none => .ok c3

/-- The body of `apply_operation_table_data` once `operation_cost.variable`
is known to be present: write `variable_cost` from the proportional term of
`vom_cost`; if the `fuel_cost` key is present, assert it is not `None` and
write `fuel_price = fuel_cost * 1000`; then process the value curve. -/
def opCostSteps (component : Record) (oc : OperationCost) (var : VariableCost) :
    Except String Record :=
  let c1 := match var.vom_cost with
    | some fd => Record.set component "variable_cost" (optNum fd.proportional_term)
    | Option.none => component
  match var.fuel_cost with
  | some Option.none => .error "AssertionError: fuel_cost is None"
  | some (some q) =>
      opCostCurve (Record.set c1 "fuel_price" (Value.num (q * 1000))) oc var
  | Option.none => opCostCurve c1 oc var

/-- `apply_operation_table_data(component)`: pass records without a truthy
`operation_cost` (or without a truthy `variable` sub-object) through
unchanged, otherwise run the cost steps. -/
def apply_operation_table_data (component : Record) : Except String Record :=
  match Record.lookup component "operation_cost" with
  | Option.none => .ok component
  | some v =>
      if v.truthy then
        match v with
        | .opCost oc =>
            match oc.«variable» with
            | Option.none => .ok component
            | some var => opCostSteps component oc var
        | _ => .error "TypeError: operation_cost is not a mapping"
      else .ok component

/-- Extract the record of a successful translation (junk on error). -/
def exceptRecord : Except String Record → Record
  | .ok r => r
  | .error _ => []

/-- Whether a translation step raised. -/
def isErrorE : Except String Record → Bool
  | .ok _ => false
  | .error _ => true

theorem costCurveLoop_preserved (pts : List (ℚ × ℚ)) (c : Record) (i : ℕ)
    (k : String) (h : ∀ m, i ≤ m → k ≠ outPointKey m ∧ k ≠ costPointKey m) :
    Record.lookup (costCurveLoop c pts i) k = Record.lookup c k := by
  induction pts generalizing c i with
  | nil => rfl
  | cons xy rest ih =>
      rw [costCurveLoop]
      rw [ih _ (i + 1) (fun m hm => h m (by omega))]
      rw [Record.lookup_set_ne _ _ _ _ (h i le_rfl).2,
          Record.lookup_set_ne _ _ _ _ (h i le_rfl).1]

theorem fuelCurveLoop_preserved (pts : List (ℚ × ℚ)) (c : Record) (i : ℕ)
    (k : String) (h : ∀ m, i ≤ m → k ≠ outPointKey m ∧ k ≠ heatRateKey m) :
    Record.lookup (fuelCurveLoop c pts i) k = Record.lookup c k := by
  induction pts generalizing c i with
  | nil => rfl
  | cons xy rest ih =>
      rw [fuelCurveLoop]
      rw [ih _ (i + 1) (fun m hm => h m (by omega))]
      rw [Record.lookup_set_ne _ _ _ _ (h i le_rfl).2,
          Record.lookup_set_ne _ _ _ _ (h i le_rfl).1]

theorem costCurveLoop_lookup_out (pts : List (ℚ × ℚ)) (c : Record) (i j : ℕ)
    (h : j < pts.length) :
    Record.lookup (costCurveLoop c pts i) (outPointKey (i + j)) =
      some (Value.num (pts.get ⟨j, h⟩).1) := by
  induction pts generalizing c i j with
  | nil => simp at h
  | cons xy rest ih =>
      cases j with
      | zero =>
          rw [costCurveLoop]
          simp only [Nat.add_zero]
          rw [costCurveLoop_preserved rest _ (i + 1) _
            (fun m hm => ⟨outPointKey_inj (by omega), outPointKey_ne_costPointKey _ _⟩)]
          rw [Record.lookup_set_ne _ _ _ _ (outPointKey_ne_costPointKey i i)]
          rw [Record.lookup_set_self]
          rfl
      | succ j' =>
          rw [costCurveLoop]
          rw [show i + (j' + 1) = (i + 1) + j' by omega]
          exact ih _ (i + 1) j' (by simpa using h)

theorem costCurveLoop_lookup_cost (pts : List (ℚ × ℚ)) (c : Record) (i j : ℕ)
    (h : j < pts.length) :
    Record.lookup (costCurveLoop c pts i) (costPointKey (i + j)) =
      some (Value.num (pts.get ⟨j, h⟩).2) := by
  induction pts generalizing c i j with
  | nil => simp at h
  | cons xy rest ih =>
      cases j with
      | zero =>
          rw [costCurveLoop]
          simp only [Nat.add_zero]
          rw [costCurveLoop_preserved rest _ (i + 1) _
            (fun m hm => ⟨fun he => outPointKey_ne_costPointKey m i he.symm,
              costPointKey_inj (by omega)⟩)]
          rw [Record.lookup_set_self]
          rfl
      | succ j' =>
          rw [costCurveLoop]
          rw [show i + (j' + 1) = (i + 1) + j' by omega]
          exact ih _ (i + 1) j' (by simpa using h)

theorem fuelCurveLoop_lookup_out (pts : List (ℚ × ℚ)) (c : Record) (i j : ℕ)
    (h : j < pts.length) :
    Record.lookup (fuelCurveLoop c pts i) (outPointKey (i + j)) =
      some (Value.num (pts.get ⟨j, h⟩).1) := by
  induction pts generalizing c i j with
  | nil => simp at h
  | cons xy rest ih =>
      cases j with
      | zero =>
          rw [fuelCurveLoop]
          simp only [Nat.add_zero]
          rw [fuelCurveLoop_preserved rest _ (i + 1) _
            (fun m hm => ⟨outPointKey_inj (by omega), outPointKey_ne_heatRateKey _ _⟩)]
          rw [Record.lookup_set_ne _ _ _ _ (outPointKey_ne_heatRateKey i i)]
          rw [Record.lookup_set_self]
          rfl
      | succ j' =>
          rw [fuelCurveLoop]
          rw [show i + (j' + 1) = (i + 1) + j' by omega]
          exact ih _ (i + 1) j' (by simpa using h)

theorem fuelCurveLoop_lookup_heat (pts : List (ℚ × ℚ)) (c : Record) (i j : ℕ)
    (h : j < pts.length) :
    Record.lookup (fuelCurveLoop c pts i) (heatRateKey (i + j)) =
      some (Value.num (pts.get ⟨j, h⟩).2) := by
  induction pts generalizing c i j with
  | nil => simp at h
  | cons xy rest ih =>
      cases j with
      | zero =>
          rw [fuelCurveLoop]
          simp only [Nat.add_zero]
          rw [fuelCurveLoop_preserved rest _ (i + 1) _
            (fun m hm => ⟨fun he => outPointKey_ne_heatRateKey m i he.symm,
              heatRateKey_inj (by omega)⟩)]
          rw [Record.lookup_set_self]
          rfl
      | succ j' =>
          rw [fuelCurveLoop]
          rw [show i + (j' + 1) = (i + 1) + j' by omega]
          exact ih _ (i + 1) j' (by simpa using h)

theorem vtp_preserves_fuel_price (c : Record) (oc : OperationCost) (r : Record)
    (h : variable_type_parsing c oc = .ok r) :
    Record.lookup r "fuel_price" = Record.lookup c "fuel_price" := by
  unfold variable_type_parsing at h
  split at h
  · exact absurd h (by simp)
  · split at h
    · exact absurd h (by simp)
    · split at h
      · exact absurd h (by simp)
      · by_cases hc : oc.variable_type = "CostCurve"
        · rw [if_pos hc] at h
          cases h
          exact costCurveLoop_preserved _ _ 0 _
            (fun m _ => ⟨fuel_price_ne_outPointKey m, fuel_price_ne_costPointKey m⟩)
        · rw [if_neg hc] at h
          by_cases hf : oc.variable_type = "FuelCurve"
          · rw [if_pos hf] at h
            cases h
            exact fuelCurveLoop_preserved _ _ 0 _
              (fun m _ => ⟨fuel_price_ne_outPointKey m, fuel_price_ne_heatRateKey m⟩)
          · rw [if_neg hf] at h
            exact absurd h (by simp)

theorem opCostCurve_preserves_fuel_price (c : Record) (oc : OperationCost)
    (var : VariableCost) (r : Record) (h : opCostCurve c oc var = .ok r) :
    Record.lookup r "fuel_price" = Record.lookup c "fuel_price" := by
  unfold opCostCurve at h
  split at h
  · cases h
    rfl
  · split at h
    · rw [vtp_preserves_fuel_price _ _ _ h]
      rw [setIfSome_lookup_ne _ _ _ _ (by decide),
          setIfSome_lookup_ne _ _ _ _ (by decide),
          setIfSome_lookup_ne _ _ _ _ (by decide)]
    · cases h
      rw [setIfSome_lookup_ne _ _ _ _ (by decide),
          setIfSome_lookup_ne _ _ _ _ (by decide),
          setIfSome_lookup_ne _ _ _ _ (by decide)]

/-- **C2**: for a record whose operation cost carries value-curve function
data with a piecewise point list, `_variable_type_parsing` dispatches on the
`variable_type` discriminator: under `CostCurve` it emits
`output_point_i = x_i` and `cost_point_i = y_i` for every point index `i`;
under `FuelCurve` it emits `output_point_i = x_i` for every `i`,
`heat_rate_avg_0 = y_0` at index 0 and `heat_rate_incr_i = y_i` for `i > 0`;
any other discriminator raises an unsupported-variant error. -/
theorem C2_variable_type_dispatch (c : Record) (oc : OperationCost)
    (var : VariableCost) (fd : FunctionData) (pts : List (ℚ × ℚ))
    (hvar : oc.«variable» = some var) (hvc : var.value_curve = some fd)
    (hpts : fd.points = some pts) :
    (oc.variable_type = "CostCurve" →
      variable_type_parsing c oc = .ok (costCurveLoop c pts 0) ∧
      ∀ j (hj : j < pts.length),
        Record.lookup (costCurveLoop c pts 0) (outPointKey j) =
          some (Value.num (pts.get ⟨j, hj⟩).1) ∧
        Record.lookup (costCurveLoop c pts 0) (costPointKey j) =
          some (Value.num (pts.get ⟨j, hj⟩).2)) ∧
    (oc.variable_type = "FuelCurve" →
      variable_type_parsing c oc = .ok (fuelCurveLoop c pts 0) ∧
      ∀ j (hj : j < pts.length),
        Record.lookup (fuelCurveLoop c pts 0) (outPointKey j) =
          some (Value.num (pts.get ⟨j, hj⟩).1) ∧
        (j = 0 → Record.lookup (fuelCurveLoop c pts 0) "heat_rate_avg_0" =
          some (Value.num (pts.get ⟨j, hj⟩).2)) ∧
        (j ≠ 0 → Record.lookup (fuelCurveLoop c pts 0)
            ("heat_rate_incr_" ++ natToDec j) =
          some (Value.num (pts.get ⟨j, hj⟩).2))) ∧
    (oc.variable_type ≠ "CostCurve" → oc.variable_type ≠ "FuelCurve" →
      isErrorE (variable_type_parsing c oc) = true) := by
  refine ⟨?_, ?_, ?_⟩
  · intro hvt
    constructor
    · unfold variable_type_parsing
      simp [hvar, hvc, hpts, hvt]
    · intro j hj
      constructor
      · have := costCurveLoop_lookup_out pts c 0 j hj
        simpa using this
      · have := costCurveLoop_lookup_cost pts c 0 j hj
        simpa using this
  · intro hvt
    constructor
    · unfold variable_type_parsing
      simp [hvar, hvc, hpts, hvt]
    · intro j hj
      refine ⟨?_, ?_, ?_⟩
      · have := fuelCurveLoop_lookup_out pts c 0 j hj
        simpa using this
      · intro hj0
        have := fuelCurveLoop_lookup_heat pts c 0 j hj
        rw [Nat.zero_add, heatRateKey, if_pos hj0] at this
        exact this
      · intro hj0
        have := fuelCurveLoop_lookup_heat pts c 0 j hj
        rw [Nat.zero_add, heatRateKey, if_neg hj0] at this
        exact this
  · intro h1 h2
    unfold variable_type_parsing
    simp only [hvar, hvc, hpts]
    rw [if_neg h1, if_neg h2]
    rfl

/-- **C3**: for a record whose variable cost data contains the `fuel_cost`
key, `apply_operation_table_data` fails when the value is `None`; when it is
a number `q` and translation succeeds, the output carries
`fuel_price = q * 1000`. -/
theorem C3_fuel_cost_translation (component : Record) (oc : OperationCost)
    (var : VariableCost)
    (hoc : Record.lookup component "operation_cost" = some (Value.opCost oc))
    (hvar : oc.«variable» = some var) :
    (var.fuel_cost = some Option.none →
      isErrorE (apply_operation_table_data component) = true) ∧
    (∀ q r, var.fuel_cost = some (some q) →
      apply_operation_table_data component = .ok r →
      Record.lookup r "fuel_price" = some (Value.num (q * 1000))) := by
  have happ : apply_operation_table_data component = opCostSteps component oc var := by
    unfold apply_operation_table_data
    rw [hoc]
    simp [Value.truthy, hvar]
  constructor
  · intro hnull
    rw [happ]
    unfold opCostSteps
    rw [hnull]
    rfl
  · intro q r hq happly
    rw [happ] at happly
    unfold opCostSteps at happly
    rw [hq] at happly
    have hp := opCostCurve_preserves_fuel_price _ _ _ _ happly
    rw [hp, Record.lookup_set_self]

/-- The three-point list of the specification's testable properties. -/
def specPoints : List (ℚ × ℚ) := [(0, 0), (50, 1000), (100, 2500)]

/-- A value-curve-only operation cost with the `CostCurve` discriminator. -/
def costOC : OperationCost :=
  { «variable» := some
      { vom_cost := Option.none, fuel_cost := Option.none,
        value_curve := some
          { constant_term := Option.none, proportional_term := Option.none,
            quadratic_term := Option.none, points := some specPoints } },
    variable_type := "CostCurve" }

/-- The same operation cost under the `FuelCurve` discriminator. -/
def fuelOC : OperationCost := { costOC with variable_type := "FuelCurve" }

/-- The same operation cost under an unsupported discriminator. -/
def quadOC : OperationCost := { costOC with variable_type := "QuadraticCurve" }

theorem C2_variable_type_dispatch_witness :
    Record.lookup (exceptRecord (variable_type_parsing [] costOC)) (outPointKey 1) =
      some (Value.num 50) ∧
    Record.lookup (exceptRecord (variable_type_parsing [] costOC)) (costPointKey 1) =
      some (Value.num 1000) ∧
    Record.lookup (exceptRecord (variable_type_parsing [] fuelOC)) "heat_rate_avg_0" =
      some (Value.num 0) ∧
    Record.lookup (exceptRecord (variable_type_parsing [] fuelOC))
      ("heat_rate_incr_" ++ natToDec 2) = some (Value.num 2500) ∧
    isErrorE (variable_type_parsing [] quadOC) = true := by
  have hc := (C2_variable_type_dispatch [] costOC _ _ specPoints rfl rfl rfl).1 rfl
  have hf := (C2_variable_type_dispatch [] fuelOC _ _ specPoints rfl rfl rfl).2.1 rfl
  have he := (C2_variable_type_dispatch [] quadOC _ _ specPoints rfl rfl rfl).2.2
    (by decide) (by decide)
  refine ⟨?_, ?_, ?_, ?_, he⟩
  · rw [hc.1]
    exact (hc.2 1 (by decide)).1
  · rw [hc.1]
    exact (hc.2 1 (by decide)).2
  · rw [hf.1]
    exact ((hf.2 0 (by decide)).2.1 rfl)
  · rw [hf.1]
    exact ((hf.2 2 (by decide)).2.2 (by decide))

/-- A generator record whose variable cost carries `fuel_cost = 0.05`. -/
def fuelCostComponent : Record :=
  [("name", Value.str "gen1"),
   ("operation_cost", Value.opCost
     { «variable» := some
         { vom_cost := Option.none, fuel_cost := some (some (1 / 20)),
           value_curve := Option.none },
       variable_type := "CostCurve" })]

/-- The same record with a `fuel_cost` key holding `None`. -/
def nullFuelComponent : Record :=
  [("name", Value.str "gen1"),
   ("operation_cost", Value.opCost
     { «variable» := some
         { vom_cost := Option.none, fuel_cost := some Option.none,
           value_curve := Option.none },
       variable_type := "CostCurve" })]

theorem C3_fuel_cost_translation_witness :
    isErrorE (apply_operation_table_data nullFuelComponent) = true ∧
    Record.lookup (exceptRecord (apply_operation_table_data fuelCostComponent))
      "fuel_price" = some (Value.num 50) := by
  have h1 := (C3_fuel_cost_translation nullFuelComponent _ _ rfl rfl).1 rfl
  have h2 := (C3_fuel_cost_translation fuelCostComponent _ _ rfl rfl).2 (1 / 20)
    (exceptRecord (apply_operation_table_data fuelCostComponent)) rfl rfl
  refine ⟨h1, ?_⟩
  rw [show ((1 : ℚ) / 20) * 1000 = 50 by norm_num] at h2
  exact h2

/-! ### Storage export (`process_storage_data`) -/

/-- One iteration of the storage loop of `process_storage_data`.
`busNumber` models `getattr(system.get_component_by_label(bus), "number",
None)`.  The Python code appends `output_dict` to the output list and only
afterwards executes `output_dict["position"] = "tail"`; the list holds a
reference, so the already-appended head row is mutated, while `tail_copy` —
copied before that assignment — keeps the position written earlier.  The
embedding returns the final states of the two appended rows. -/
def storageRow (busNumber : Value → Value) (storage : Record) :
    Option (Record × Record) :=
  match Record.lookup storage "name", Record.lookup storage "active_power_limits_max",
        Record.lookup storage "active_power", Record.lookup storage "bus",
        Record.lookup storage "rating" with
  | some (Value.str s), some apmax, some ap, some busv, some rating =>
      let d := Record.set storage "generator_name" (Value.str s)
      let d := Record.set d "input_active_power_limit_max" apmax
      let d := Record.set d "output_active_power_limit_max" apmax
      let d := Record.set d "input_active_power_limit_min" (Value.num 0)
      let d := Record.set d "output_active_power_limit_min" (Value.num 0)
      let d := Record.set d "active_power" ap
      let d := Record.set d "bus_id"
        (if busv.truthy then busNumber busv else Value.none)
      let d := Record.set d "rating" rating
      let head1 := Record.set (Record.set d "name" (Value.str (s ++ "_head")))
        "position" (Value.str "head")
      let tail := Record.set head1 "name" (Value.str (s ++ "_tail"))
      let head := Record.set head1 "position" (Value.str "tail")
      some (head, tail)
  | _, _, _, _, _ => Option.none

/-- The storage loop of `process_storage_data`: per storage record, append
the head row and then the tail row. -/
def storageLoop (busNumber : Value → Value) : List Record → Option (List Record)
  | [] => some []
  | r :: rest =>
      match storageRow busNumber r, storageLoop busNumber rest with
      | some pair, some out => some (pair.1 :: pair.2 :: out)
      | _, _ => Option.none

/-- A simple storage record named `"X"` holding the fields the loop reads. -/
def sampleStorage : Record :=
  [("name", Value.str "X"), ("active_power_limits_max", Value.num 10),
   ("active_power", Value.num 5), ("bus", Value.str "ElectricBus1"),
   ("rating", Value.num 12)]

/-- **C1** (the claim fails on the code): on a storage component named
`"X"`, `process_storage_data` emits two rows that are identical except for
`name` and `position`, but the row named `"X_head"` carries position
`"tail"` and the row named `"X_tail"` carries position `"head"`: the final
`output_dict["position"] = "tail"` assignment mutates the already-appended
head dictionary instead of `tail_copy`. -/
theorem C1_storage_head_tail_positions_swapped :
    Option.map (fun p =>
        (Record.lookup p.1 "name", Record.lookup p.1 "position",
         Record.lookup p.2 "name", Record.lookup p.2 "position"))
      (storageRow (fun _ => Value.num 1) sampleStorage) =
    some (some (Value.str "X_head"), some (Value.str "tail"),
          some (Value.str "X_tail"), some (Value.str "head")) := by
  rfl

theorem storageRow_limit_min (busNumber : Value → Value) (storage head tail : Record)
    (h : storageRow busNumber storage = some (head, tail)) :
    (Record.lookup head "input_active_power_limit_min" = some (Value.num 0) ∧
     Record.lookup head "output_active_power_limit_min" = some (Value.num 0)) ∧
    (Record.lookup tail "input_active_power_limit_min" = some (Value.num 0) ∧
     Record.lookup tail "output_active_power_limit_min" = some (Value.num 0)) := by
  unfold storageRow at h
  split at h
  · cases h
    refine ⟨⟨?_, ?_⟩, ⟨?_, ?_⟩⟩ <;> simp [Record.lookup_set]
  · exact absurd h (by simp)

/-- **C10**: every storage row written by `process_storage_data` (head and
tail alike) carries `input_active_power_limit_min = 0` and
`output_active_power_limit_min = 0`, regardless of the component's own
active-power data. -/
theorem C10_storage_power_limit_min_zero (busNumber : Value → Value)
    (records rows : List Record)
    (h : storageLoop busNumber records = some rows) :
    ∀ row ∈ rows,
      Record.lookup row "input_active_power_limit_min" = some (Value.num 0) ∧
      Record.lookup row "output_active_power_limit_min" = some (Value.num 0) := by
  induction records generalizing rows with
  | nil =>
      cases h
      intro row hrow
      simp at hrow
  | cons r rest ih =>
      unfold storageLoop at h
      cases hr : storageRow busNumber r with
      | none => rw [hr] at h; exact absurd h (by simp)
      | some pair =>
          obtain ⟨head, tail⟩ := pair
          rw [hr] at h
          cases ho : storageLoop busNumber rest with
          | none => rw [ho] at h; exact absurd h (by simp)
          | some out =>
              rw [ho] at h
              cases h
              intro row hrow
              have hl := storageRow_limit_min busNumber r head tail hr
              simp only [List.mem_cons] at hrow
              rcases hrow with hrow | hrow | hrow
              · subst hrow
                exact hl.1
              · subst hrow
                exact hl.2
              · exact ih out ho row hrow

theorem C10_storage_power_limit_min_zero_witness :
    Record.lookup
      (((storageLoop (fun _ => Value.num 1) [sampleStorage]).getD []).getD 0 [])
      "input_active_power_limit_min" = some (Value.num 0) ∧
    Record.lookup
      (((storageLoop (fun _ => Value.num 1) [sampleStorage]).getD []).getD 0 [])
      "output_active_power_limit_min" = some (Value.num 0) :=
  C10_storage_power_limit_min_zero (fun _ => Value.num 1) [sampleStorage] _ rfl _
    (by decide)

/-! ### Pipeline stage functions, modelled from the spec

The stages live in `r2x.exporter.utils`, which is not under `src/`; only
their call sites are.  Each definition below follows the specification's
description of the stage. -/

/-- Modelled from the spec: `apply_property_map` (`r2x.exporter.utils`, not
under src/): rename keys per the property map; unmapped keys pass through
unchanged. -/
def apply_property_map (property_map : List (String × String)) (r : Record) :
    Record :=
  r.map fun kv =>
    match assocS property_map kv.1 with
    | some k' => (k', kv.2)
    | Option.none => kv

/-- Modelled from the spec: `apply_pint_deconstruction` (`r2x.exporter.utils`,
not under src/): replace every unit-bearing value with a bare numeric
magnitude, converting with `conv magnitude fromUnit toUnit` into the unit
named by the unit map for that field when present, else keeping the value's
own base-unit magnitude. -/
def apply_pint_deconstruction (conv : ℚ → String → String → ℚ)
    (unit_map : List (String × String)) (r : Record) : Record :=
  r.map fun kv =>
    match kv.2 with
    | Value.quantity m u =>
        (kv.1, Value.num (match assocS unit_map kv.1 with
          | some tgt => conv m u tgt
          | Option.none => m))
    | _ => kv

/-- Modelled from the spec: `apply_unnest_key` (`r2x.exporter.utils`, not
under src/): for each `field ↦ attribute` pair of the key map, treat the
record's `field` value as a reference to another component and substitute
that component's attribute, `resolve reference attribute`. -/
def apply_unnest_key (resolve : Value → String → Value)
    (key_map : List (String × String)) (r : Record) : Record :=
  r.map fun kv =>
    match assocS key_map kv.1 with
    | some attr => (kv.1, resolve kv.2 attr)
    | Option.none => kv

/-- Modelled from the spec: `apply_default_value` (`r2x.exporter.utils`, not
under src/): fill a field only when it is absent or null; never overwrite a
present value. -/
def apply_default_value (defaults : List (String × Value)) (r : Record) :
    Record :=
  defaults.foldl (fun acc kd =>
    match Record.lookup acc kd.1 with
    | Option.none => Record.set acc kd.1 kd.2
    | some Value.none => Record.set acc kd.1 kd.2
    | some _ => acc) r

theorem apply_default_single (r : Record) (k : String) (d : Value) :
    apply_default_value [(k, d)] r =
      match Record.lookup r k with
      | Option.none => Record.set r k d
      | some Value.none => Record.set r k d
      | some _ => r := rfl

/-- Python dict union `a | b`: the keys of `a` in order, values overridden
by `b` on collision, followed by the keys only in `b`. -/
def dictUnion (a b : List (String × String)) : List (String × String) :=
  (a.map fun kv =>
    match assocS b kv.1 with
    | some v => (kv.1, v)
    | Option.none => kv) ++ b.filter fun kv => (assocS a kv.1).isNone

/-! ### AC-branch export (`process_branch_data`) -/

/-- The entity key mapping of `process_branch_data`. -/
def branchKeyMapping : List (String × String) :=
  [("from_bus", "connection_points_from"), ("to_bus", "connection_points_to"),
   ("class_type", "branch_type"), ("rating", "rate"), ("b", "primary_shunt")]

/-- The first three stages of `process_branch_data`: rename with the global
property map overridden by the branch key mapping, strip units, and unnest
the connection-point buses to their `number` attribute. -/
def branchPreStages (property_map unit_map : List (String × String))
    (conv : ℚ → String → String → ℚ) (resolve : Value → String → Value)
    (r : Record) : Record :=
  apply_unnest_key resolve
    [("connection_points_from", "number"), ("connection_points_to", "number")]
    (apply_pint_deconstruction conv unit_map
      (apply_property_map (dictUnion property_map branchKeyMapping) r))

/-- The `is_transformer` stage of `process_branch_data`:
`is_transformer = (branch_type == Transformer2W.__name__)`; a record without
`branch_type` raises `KeyError`. -/
def isTransformerStage (r : Record) : Option Record :=
  match Record.lookup r "branch_type" with
  | some v => some (Record.set r "is_transformer"
      (Value.bool (decide (v = Value.str "Transformer2W"))))
  | Option.none => Option.none

/-- The stage chain `process_branch_data` applies to one AC-branch record:
the three pre-stages, then `is_transformer` derivation, then `tap`
defaulting to `1.0`. -/
def processBranchRecord (property_map unit_map : List (String × String))
    (conv : ℚ → String → String → ℚ) (resolve : Value → String → Value)
    (r : Record) : Option Record :=
  (isTransformerStage (branchPreStages property_map unit_map conv resolve r)).map
    (apply_default_value [("tap", Value.num 1)])

/-- **C5**: for every AC-branch record processed by `process_branch_data`,
`is_transformer` is true exactly when the branch's class name (the
`class_type` field, renamed to `branch_type` by the stage's key mapping)
equals `Transformer2W`, and `tap` is set to `1.0` when absent (or null,
which the default stage also fills) while a present non-null tap value is
kept unchanged. -/
theorem C5_branch_transformer_and_tap (property_map unit_map : List (String × String))
    (conv : ℚ → String → String → ℚ) (resolve : Value → String → Value)
    (r : Record) (v : Value)
    (hbt : Record.lookup (branchPreStages property_map unit_map conv resolve r)
      "branch_type" = some v) :
    ∃ out, processBranchRecord property_map unit_map conv resolve r = some out ∧
      (Record.lookup out "is_transformer" = some (Value.bool true) ↔
        v = Value.str "Transformer2W") ∧
      (Record.lookup out "is_transformer" = some (Value.bool false) ↔
        v ≠ Value.str "Transformer2W") ∧
      ((Record.lookup (branchPreStages property_map unit_map conv resolve r)
          "tap" = Option.none ∨
        Record.lookup (branchPreStages property_map unit_map conv resolve r)
          "tap" = some Value.none) →
        Record.lookup out "tap" = some (Value.num 1)) ∧
      (∀ w, Record.lookup (branchPreStages property_map unit_map conv resolve r)
          "tap" = some w → w ≠ Value.none →
        Record.lookup out "tap" = some w) := by
  have hstage : isTransformerStage (branchPreStages property_map unit_map conv resolve r) =
      some (Record.set (branchPreStages property_map unit_map conv resolve r)
        "is_transformer" (Value.bool (decide (v = Value.str "Transformer2W")))) := by
    unfold isTransformerStage
    rw [hbt]
  have hXtap : Record.lookup
      (Record.set (branchPreStages property_map unit_map conv resolve r)
        "is_transformer" (Value.bool (decide (v = Value.str "Transformer2W"))))
      "tap" =
      Record.lookup (branchPreStages property_map unit_map conv resolve r) "tap" :=
    Record.lookup_set_ne _ _ _ _ (by decide)
  have hXtr : Record.lookup
      (Record.set (branchPreStages property_map unit_map conv resolve r)
        "is_transformer" (Value.bool (decide (v = Value.str "Transformer2W"))))
      "is_transformer" = some (Value.bool (decide (v = Value.str "Transformer2W"))) :=
    Record.lookup_set_self _ _ _
  refine ⟨apply_default_value [("tap", Value.num 1)]
    (Record.set (branchPreStages property_map unit_map conv resolve r)
      "is_transformer" (Value.bool (decide (v = Value.str "Transformer2W")))),
    ?_, ?_, ?_, ?_, ?_⟩
  · unfold processBranchRecord
    rw [hstage]
    rfl
  · rw [apply_default_single]
    split
    · rw [Record.lookup_set_ne _ _ _ _ (by decide), hXtr]
      simp
    · rw [Record.lookup_set_ne _ _ _ _ (by decide), hXtr]
      simp
    · rw [hXtr]
      simp
  · rw [apply_default_single]
    split
    · rw [Record.lookup_set_ne _ _ _ _ (by decide), hXtr]
      simp
    · rw [Record.lookup_set_ne _ _ _ _ (by decide), hXtr]
      simp
    · rw [hXtr]
      simp
  · intro htap
    rw [apply_default_single, hXtap]
    rcases htap with h | h <;> rw [h] <;> exact Record.lookup_set_self _ _ _
  · intro w hw hwn
    rw [apply_default_single, hXtap, hw]
    cases w with
    | none => exact absurd rfl hwn
    | str s => exact hXtap.trans hw
    | num q => exact hXtap.trans hw
    | bool b => exact hXtap.trans hw
    | enumV n => exact hXtap.trans hw
    | quantity m u => exact hXtap.trans hw
    | opCost oc => exact hXtap.trans hw

/-- A two-winding transformer AC-branch record, `tap` absent. -/
def transformerBranch : Record :=
  [("name", Value.str "b1"), ("class_type", Value.str "Transformer2W"),
   ("from_bus", Value.str "Bus1"), ("to_bus", Value.str "Bus2"),
   ("rating", Value.num 100)]

/-- A plain line AC-branch record with an explicit `tap`. -/
def lineBranch : Record :=
  [("name", Value.str "b2"), ("class_type", Value.str "Line"),
   ("from_bus", Value.str "Bus1"), ("to_bus", Value.str "Bus2"),
   ("tap", Value.num 2)]

theorem C5_branch_transformer_and_tap_witness :
    Record.lookup ((processBranchRecord [] [] (fun m _ _ => m) (fun w _ => w)
      transformerBranch).getD []) "is_transformer" = some (Value.bool true) ∧
    Record.lookup ((processBranchRecord [] [] (fun m _ _ => m) (fun w _ => w)
      transformerBranch).getD []) "tap" = some (Value.num 1) ∧
    Record.lookup ((processBranchRecord [] [] (fun m _ _ => m) (fun w _ => w)
      lineBranch).getD []) "is_transformer" = some (Value.bool false) ∧
    Record.lookup ((processBranchRecord [] [] (fun m _ _ => m) (fun w _ => w)
      lineBranch).getD []) "tap" = some (Value.num 2) := by
  obtain ⟨out1, hout1, ht1, _, habs1, _⟩ :=
    C5_branch_transformer_and_tap [] [] (fun m _ _ => m) (fun w _ => w)
      transformerBranch (Value.str "Transformer2W") rfl
  obtain ⟨out2, hout2, _, hf2, _, hpres2⟩ :=
    C5_branch_transformer_and_tap [] [] (fun m _ _ => m) (fun w _ => w)
      lineBranch (Value.str "Line") rfl
  rw [hout1, hout2]
  exact ⟨ht1.mpr rfl, habs1 (Or.inl rfl),
    hf2.mpr (by decide), hpres2 (Value.num 2) rfl (by decide)⟩

/-! ### Reserve export (`process_reserves_data`) -/

/-- `str(tuple(devices)).replace("'", "")`: Python's textual tuple of the
contributing devices with apostrophes removed (a one-element tuple keeps its
trailing comma). -/
def tupleLiteral (devices : List String) : String :=
  let q := String.mk [Char.ofNat 39]
  let inner := String.intercalate ", " (devices.map fun d => q ++ d ++ q)
  let raw := if devices.length = 1 then "(" ++ inner ++ ",)" else "(" ++ inner ++ ")"
  String.mk (raw.data.filter fun c => c ≠ Char.ofNat 39)

/-- The loop of `process_reserves_data` over the reserves: a reserve whose
name is a key of the reserve map has its direction rendered by symbolic
name, the fixed eligible-device categories attached and its contributing
devices rendered as a tuple literal; any other reserve is skipped.  A
missing `name` key or a non-enum `direction` raises. -/
def reservesLoop (m : List (String × List String)) : List Record → Option (List Record)
  | [] => some []
  | reserve :: rest =>
      match Record.lookup reserve "name" with
      | some (Value.str n) =>
          match assocS m n with
          | some devices =>
              match Record.lookup reserve "direction", reservesLoop m rest with
              | some (Value.enumV dir), some out =>
                  some ((Record.set (Record.set (Record.set reserve "direction"
                    (Value.str dir)) "eligible_device_categories"
                    (Value.str "(Generator,Storage)")) "contributing_devices"
                    (Value.str (tupleLiteral devices))) :: out)
              | _, _ => Option.none
          | Option.none => reservesLoop m rest
      | some _ => reservesLoop m rest
      | Option.none => Option.none

/-- The stage chain applied to every collected reserve row. -/
def reserveStage (property_map unit_map : List (String × String))
    (conv : ℚ → String → String → ℚ) (resolve : Value → String → Value)
    (row : Record) : Record :=
  apply_unnest_key resolve [("eligible_region", "name")]
    (apply_pint_deconstruction conv unit_map
      (apply_property_map
        (dictUnion property_map
          (dictUnion [("region", "eligible_region"), ("max_requirement", "requirement")]
            property_map)) row))

/-- The outcome of `process_reserves_data`: the file is skipped with a
warning, or rows are written. -/
inductive ReservesResult where
  | skipped
  | written (rows : List Record)
deriving DecidableEq, Repr

/-- `process_reserves_data`: with zero reserve maps warn and skip; with more
than one warn and skip; otherwise collect the rows of the loop and run the
stage chain over them. -/
def process_reserves_data (property_map unit_map : List (String × String))
    (conv : ℚ → String → String → ℚ) (resolve : Value → String → Value)
    (reserveMaps : List (List (String × List String))) (reserves : List Record) :
    Option ReservesResult :=
  match reserveMaps with
  | [] => some ReservesResult.skipped
  | [m] => (reservesLoop m reserves).map fun pre =>
      ReservesResult.written (pre.map (reserveStage property_map unit_map conv resolve))
  | _ => some ReservesResult.skipped

/-- Whether a reserve row's `name` is a key of the reserve map. -/
def rowNameInMap (m : List (String × List String)) (row : Record) : Bool :=
  match Record.lookup row "name" with
  | some (Value.str n) => (assocS m n).isSome
  | _ => false

theorem reservesLoop_only_mapped (m : List (String × List String)) :
    ∀ reserves pre : List Record, reservesLoop m reserves = some pre →
      ∀ row ∈ pre, rowNameInMap m row = true := by
  intro reserves
  induction reserves with
  | nil =>
      intro pre h row hrow
      cases h
      simp at hrow
  | cons reserve rest ih =>
      intro pre h row hrow
      unfold reservesLoop at h
      split at h
      · rename_i n hn
        split at h
        · rename_i devices hdev
          split at h
          · rename_i dir out hdir hout
            cases h
            simp only [List.mem_cons] at hrow
            rcases hrow with hrow | hrow
            · subst hrow
              unfold rowNameInMap
              rw [Record.lookup_set_ne _ _ _ _ (by decide),
                  Record.lookup_set_ne _ _ _ _ (by decide),
                  Record.lookup_set_ne _ _ _ _ (by decide), hn]
              show (assocS m n).isSome = true
              rw [hdev]
              rfl
            · exact ih out hout row hrow
          · exact absurd h (by simp)
        · exact ih pre h row hrow
      · exact ih pre h row hrow
      · exact absurd h (by simp)

/-- **C4**: `process_reserves_data` skips the whole reserves file when the
system holds zero or more than one reserve map (warning, run continues); with
exactly one map, every collected row's name is a key of that map — a
reserve absent from the map is never emitted — and the written rows are
exactly the collected rows run through the stage chain. -/
theorem C4_reserves (property_map unit_map : List (String × String))
    (conv : ℚ → String → String → ℚ) (resolve : Value → String → Value)
    (reserveMaps : List (List (String × List String))) (reserves : List Record) :
    (reserveMaps = [] →
      process_reserves_data property_map unit_map conv resolve reserveMaps reserves =
        some ReservesResult.skipped) ∧
    (2 ≤ reserveMaps.length →
      process_reserves_data property_map unit_map conv resolve reserveMaps reserves =
        some ReservesResult.skipped) ∧
    (∀ m pre, reserveMaps = [m] → reservesLoop m reserves = some pre →
      ∀ row ∈ pre, rowNameInMap m row = true) ∧
    (∀ m rows, reserveMaps = [m] →
      process_reserves_data property_map unit_map conv resolve reserveMaps reserves =
        some (ReservesResult.written rows) →
      ∃ pre, reservesLoop m reserves = some pre ∧
        rows = pre.map (reserveStage property_map unit_map conv resolve)) := by
  refine ⟨?_, ?_, ?_, ?_⟩
  · intro h
    subst h
    rfl
  · intro h
    match reserveMaps, h with
    | m1 :: m2 :: rest, _ => rfl
  · intro m pre hm hloop
    exact reservesLoop_only_mapped m reserves pre hloop
  · intro m rows hm hproc
    subst hm
    have hproc' : (reservesLoop m reserves).map
        (fun pre => ReservesResult.written
          (pre.map (reserveStage property_map unit_map conv resolve))) =
        some (ReservesResult.written rows) := hproc
    cases hl : reservesLoop m reserves with
    | none =>
        rw [hl] at hproc'
        exact absurd hproc' (by simp)
    | some pre =>
        rw [hl] at hproc'
        simp at hproc'
        exact ⟨pre, rfl, hproc'.symm⟩

/-- A one-entry reserve map. -/
def sampleReserveMap : List (String × List String) := [("SpinUp", ["g1", "g2"])]

/-- A reserve present in the map. -/
def inReserve : Record :=
  [("name", Value.str "SpinUp"), ("direction", Value.enumV "UP"),
   ("max_requirement", Value.num 100)]

/-- A reserve absent from the map. -/
def outReserve : Record :=
  [("name", Value.str "Flex"), ("direction", Value.enumV "UP")]

theorem C4_reserves_witness :
    process_reserves_data [] [] (fun m _ _ => m) (fun w _ => w) [] [inReserve] =
      some ReservesResult.skipped ∧
    rowNameInMap sampleReserveMap
      (((reservesLoop sampleReserveMap [inReserve, outReserve]).getD []).getD 0 []) =
      true := by
  constructor
  · exact (C4_reserves [] [] (fun m _ _ => m) (fun w _ => w) [] [inReserve]).1 rfl
  · exact (C4_reserves [] [] (fun m _ _ => m) (fun w _ => w) [sampleReserveMap]
      [inReserve, outReserve]).2.2.1 sampleReserveMap _ rfl rfl _ (by decide)

/-! ### Generator sort (`process_gen_data`) -/

/-- `itemgetter("name")` on an export record (the sort theorem assumes every
record carries a string name, as `itemgetter` would otherwise raise). -/
def nameKey (r : Record) : String :=
  match Record.lookup r "name" with
  | some (Value.str s) => s
  | _ => ""

/-- `sorted(export_records, key=itemgetter("name"), reverse=True)`: stable
sort by the name field, descending. -/
def sortGenRecords (records : List Record) : List Record :=
  records.mergeSort fun a b => decide (nameKey b ≤ nameKey a)

/-- **C7**: `process_gen_data` sorts the generator export records by their
`name` field in descending order before writing: the sorted list is a
permutation of the input and every later record's name is `≤` every earlier
one's. -/
theorem C7_gen_sorted_descending (records : List Record)
    (h : ∀ r ∈ records, ∃ s, Record.lookup r "name" = some (Value.str s)) :
    (sortGenRecords records).Perm records ∧
    List.Pairwise (fun a b => nameKey b ≤ nameKey a) (sortGenRecords records) := by
  constructor
  · exact List.mergeSort_perm records _
  · have hs := @List.sorted_mergeSort Record
      (fun a b => decide (nameKey b ≤ nameKey a))
      (fun a b c hab hbc => by
        simp only [decide_eq_true_eq] at hab hbc ⊢
        exact le_trans hbc hab)
      (fun a b => by
        rcases le_total (nameKey b) (nameKey a) with hle | hle
        · simp [hle]
        · simp [hle])
      records
    exact List.Pairwise.imp (fun hab => by simpa using hab) hs

/-- A generator export record named `alpha`. -/
def genA : Record := [("name", Value.str "alpha")]

/-- A generator export record named `beta`. -/
def genB : Record := [("name", Value.str "beta")]

theorem C7_gen_sorted_descending_witness :
    (sortGenRecords [genA, genB]).Perm [genA, genB] ∧
    List.Pairwise (fun a b => nameKey b ≤ nameKey a) (sortGenRecords [genA, genB]) :=
  C7_gen_sorted_descending [genA, genB] (by
    intro r hr
    simp only [List.mem_cons, List.not_mem_nil, or_false] at hr
    rcases hr with h | h <;> subst h <;> exact ⟨_, rfl⟩)

/-! ### Exporter construction (`SiennaExporter.__init__`) -/

/-- Modelled from the spec: the Sienna output-configuration payload
(`r2x.config_models`, not under src/): the defaults dictionary holds the
property map, the unit map and, when present, the `table_data` schema
dictionary; `get_year` exposes the reference year (`None` when unset). -/
structure SiennaDefaults where
  sienna_property_map : List (String × String)
  sienna_unit_map : List (String × String)
  table_data : Option (List (String × List String))
  year : Option ℤ
deriving DecidableEq, Repr

/-- Modelled from the spec: the output-configuration object — either a
`SiennaConfig` or some other configuration type (its type name recorded). -/
inductive OutputConfig where
  | sienna (defaults : SiennaDefaults)
  | other (typeName : String)
deriving DecidableEq, Repr

/-- Modelled from the spec: the `solve_year` field of an input
configuration — a single year or a list of years. -/
inductive SolveYear where
  | single (y : ℤ)
  | multiple (ys : List ℤ)
deriving DecidableEq, Repr

/-- Modelled from the spec: the input-configuration object — a `ReEDSConfig`
or some other input type, each carrying a solve year. -/
inductive InputConfig where
  | reeds (solve_year : SolveYear)
  | otherInput (solve_year : SolveYear)
deriving DecidableEq, Repr

/-- The exceptions `SiennaExporter.__init__` can raise. -/
inductive InitError where
  | typeError
  | notImplementedMultiYear
  | keyErrorTableData
  | assertionYearNone
deriving DecidableEq, Repr

/-- The exporter state built by a successful construction. -/
structure SiennaExporterState where
  property_map : List (String × String)
  unit_map : List (String × String)
  output_fields : List (String × List String)
  year : ℤ
  output_data : List (String × Value)
deriving DecidableEq, Repr

/-- `SiennaExporter.__init__`: raise `TypeError` when the output config is
not a `SiennaConfig`; then raise `NotImplementedError` when the input config
is a `ReEDSConfig` whose `solve_year` is a list; then read the maps, the
`table_data` schema (`KeyError` when missing) and the year (assertion
failure when `None`).  `self.output_data` starts empty and construction
writes no file. -/
def siennaExporterInit (outputConfig : OutputConfig) (inputConfig : InputConfig) :
    Except InitError SiennaExporterState :=
  match outputConfig with
  | OutputConfig.other _ => .error InitError.typeError
  | OutputConfig.sienna defaults =>
      match inputConfig with
      | InputConfig.reeds (SolveYear.multiple _) =>
          .error InitError.notImplementedMultiYear
      | _ =>
          match defaults.table_data with
          | Option.none => .error InitError.keyErrorTableData
          | some td =>
              match defaults.year with
              | Option.none => .error InitError.assertionYearNone
              | some y =>
                  .ok { property_map := defaults.sienna_property_map,
                        unit_map := defaults.sienna_unit_map,
                        output_fields := td, year := y, output_data := [] }

/-- Whether the output configuration has the wrong type. -/
def wrongOutputType : OutputConfig → Bool
  | OutputConfig.sienna _ => false
  | OutputConfig.other _ => true

/-- Whether the input configuration is a ReEDS config requesting a list of
solve years. -/
def multiYearReeds : InputConfig → Bool
  | InputConfig.reeds (SolveYear.multiple _) => true
  | _ => false

/-- Whether the configuration defaults carry the table schema and a year
(the construction steps after the two guarded checks). -/
def wellFormedDefaults : OutputConfig → Bool
  | OutputConfig.sienna d => d.table_data.isSome && d.year.isSome
  | OutputConfig.other _ => true

/-- Whether construction raised. -/
def initRaises (e : Except InitError SiennaExporterState) : Bool :=
  match e with
  | .error _ => true
  | .ok _ => false

/-- Whether the constructed state holds no output rows (vacuously true when
construction raised: nothing was written either way). -/
def initOutputDataEmpty (e : Except InitError SiennaExporterState) : Bool :=
  match e with
  | .error _ => true
  | .ok st => st.output_data.isEmpty

/-- **C6**: given configuration defaults that carry the table schema and a
year (the inputs read after the guarded checks), the constructor raises
exactly when the output configuration has the wrong type or when a ReEDS
input requests multiple solve years; and in every case the exporter holds no
output rows at construction time, so no file has been written. -/
theorem C6_constructor_errors (outputConfig : OutputConfig)
    (inputConfig : InputConfig)
    (hwf : wellFormedDefaults outputConfig = true) :
    initRaises (siennaExporterInit outputConfig inputConfig) =
      (wrongOutputType outputConfig || multiYearReeds inputConfig) ∧
    initOutputDataEmpty (siennaExporterInit outputConfig inputConfig) = true := by
  cases outputConfig with
  | other t =>
      exact ⟨rfl, rfl⟩
  | sienna d =>
      simp only [wellFormedDefaults, Bool.and_eq_true, Option.isSome_iff_exists] at hwf
      obtain ⟨⟨td, htd⟩, ⟨y, hy⟩⟩ := hwf
      cases inputConfig with
      | reeds sy =>
          cases sy with
          | single yy =>
              simp [siennaExporterInit, htd, hy, wrongOutputType, multiYearReeds,
                initRaises, initOutputDataEmpty]
          | multiple ys =>
              exact ⟨rfl, rfl⟩
      | otherInput sy =>
          cases sy with
          | single yy =>
              simp [siennaExporterInit, htd, hy, wrongOutputType, multiYearReeds,
                initRaises, initOutputDataEmpty]
          | multiple ys =>
              simp [siennaExporterInit, htd, hy, wrongOutputType, multiYearReeds,
                initRaises, initOutputDataEmpty]

theorem C6_constructor_errors_witness :
    initRaises (siennaExporterInit (OutputConfig.other "PlexosConfig")
      (InputConfig.reeds (SolveYear.single 2030))) =
      (wrongOutputType (OutputConfig.other "PlexosConfig") ||
       multiYearReeds (InputConfig.reeds (SolveYear.single 2030))) ∧
    initOutputDataEmpty (siennaExporterInit (OutputConfig.other "PlexosConfig")
      (InputConfig.reeds (SolveYear.single 2030))) = true :=
  C6_constructor_errors (OutputConfig.other "PlexosConfig")
    (InputConfig.reeds (SolveYear.single 2030)) (by decide)

/-! ### Fixed table schemas and placeholders (`_export_dict_to_csv` calls) -/

/-- The seven entity tables the exporter writes. -/
inductive SiennaTable where
  | bus
  | load
  | branch
  | dcBranch
  | gen
  | reserves
  | storage
deriving DecidableEq, Repr

/-- The `restval` literal each `process_*` method passes to the CSV writer:
`"0.0"` for `load.csv`, `"NA"` for every other table. -/
def tableRestval : SiennaTable → String
  | SiennaTable.bus => "NA"
  | SiennaTable.load => "0.0"
  | SiennaTable.branch => "NA"
  | SiennaTable.dcBranch => "NA"
  | SiennaTable.gen => "NA"
  | SiennaTable.reserves => "NA"
  | SiennaTable.storage => "NA"

/-- The fixed `output_fields` schema each method passes; the generator
schema comes from configuration (`table_data["generator"]`). -/
def tableFields (genFields : List String) : SiennaTable → List String
  | SiennaTable.bus =>
      ["bus_id", "name", "area", "zone", "base_voltage", "bus_type"]
  | SiennaTable.load =>
      ["bus_id", "name", "available", "active_power", "reactive_power",
       "max_active_power", "max_reeactive_power"]
  | SiennaTable.branch =>
      ["name", "connection_points_from", "connection_points_to", "r", "x",
       "primary_shunt", "rate", "rating_up", "rating_down", "tap",
       "is_transformer", "ext"]
  | SiennaTable.dcBranch =>
      ["name", "connection_points_from", "connection_points_to", "rate", "loss"]
  | SiennaTable.gen => genFields
  | SiennaTable.reserves =>
      ["name", "requirement", "timeframe", "eligible_region", "direction",
       "contributing_devices", "eligible_device_categories",
       "eligible_device_subcategories"]
  | SiennaTable.storage =>
      ["name", "position", "available", "generator_name", "bus_id",
       "active_power", "rating", "input_efficiency", "output_efficiency",
       "storage_capacity", "min_storage_capacity", "max_storage_capacity",
       "input_active_power_limit_min", "output_active_power_limit_max",
       "output_active_power_limit_min", "unit_type"]

/-- Modelled from the spec: `_export_dict_to_csv` (the exporter handler, not
under src/): write each record against the fixed schema, substituting the
table placeholder `restval` for any absent field. -/
def export_dict_to_csv (fields : List String) (restval : String)
    (records : List Record) : List Record :=
  records.map fun r =>
    fields.map fun f => (f, (Record.lookup r f).getD (Value.str restval))

/-- One entity-table export: the table's schema and placeholder. -/
def exportTable (t : SiennaTable) (genFields : List String)
    (records : List Record) : List Record :=
  export_dict_to_csv (tableFields genFields t) (tableRestval t) records

theorem lookup_row_build (fields : List String) (g : String → Value) (f : String)
    (hf : f ∈ fields) :
    Record.lookup (fields.map fun x => (x, g x)) f = some (g f) := by
  induction fields with
  | nil => cases hf
  | cons a rest ih =>
      by_cases h : a = f
      · subst h
        simp [Record.lookup]
      · have hf' : f ∈ rest := by
          rcases List.mem_cons.mp hf with h' | h'
          · exact absurd h'.symm h
          · exact h'
        simp only [List.map_cons]
        show Record.lookup ((a, g a) :: rest.map fun x => (x, g x)) f = some (g f)
        unfold Record.lookup
        rw [if_neg h]
        exact ih hf'

/-- **C8**: every row written for an entity table has exactly the fields of
that table's fixed schema, in schema order; a field present in the source
record keeps its value and an absent field is filled with the table
placeholder — the string `"0.0"` for the load table and `"NA"` for every
other table. -/
theorem C8_schema_placeholder (t : SiennaTable) (genFields : List String)
    (records : List Record) (i : ℕ) (f : String) (hi : i < records.length)
    (hf : f ∈ tableFields genFields t) :
    (exportTable t genFields records).length = records.length ∧
    ((exportTable t genFields records).getD i []).map Prod.fst =
      tableFields genFields t ∧
    Record.lookup ((exportTable t genFields records).getD i []) f =
      some ((Record.lookup (records.getD i []) f).getD
        (Value.str (tableRestval t))) ∧
    tableRestval SiennaTable.load = "0.0" ∧
    (t ≠ SiennaTable.load → tableRestval t = "NA") := by
  have hrow : (exportTable t genFields records).getD i [] =
      (tableFields genFields t).map
        (fun x => (x, (Record.lookup (records.getD i []) x).getD
          (Value.str (tableRestval t)))) := by
    unfold exportTable export_dict_to_csv
    rw [List.getD_eq_getElem?_getD, List.getElem?_map, List.getElem?_eq_getElem hi,
        List.getD_eq_getElem?_getD, List.getElem?_eq_getElem hi]
    rfl
  refine ⟨?_, ?_, ?_, rfl, ?_⟩
  · unfold exportTable export_dict_to_csv
    simp
  · rw [hrow]
    simp [List.map_map, Function.comp_def]
  · rw [hrow, lookup_row_build _ _ f hf]
  · intro ht
    cases t with
    | load => exact absurd rfl ht
    | bus => rfl
    | branch => rfl
    | dcBranch => rfl
    | gen => rfl
    | reserves => rfl
    | storage => rfl

theorem C8_schema_placeholder_witness :
    (exportTable SiennaTable.load [] [[("name", Value.str "L1")]]).length =
      [[("name", Value.str "L1")]].length ∧
    ((exportTable SiennaTable.load [] [[("name", Value.str "L1")]]).getD 0 []).map
      Prod.fst = tableFields [] SiennaTable.load ∧
    Record.lookup
      ((exportTable SiennaTable.load [] [[("name", Value.str "L1")]]).getD 0 [])
      "bus_id" =
      some ((Record.lookup ([[("name", Value.str "L1")]].getD 0 []) "bus_id").getD
        (Value.str (tableRestval SiennaTable.load))) ∧
    tableRestval SiennaTable.load = "0.0" ∧
    (SiennaTable.load ≠ SiennaTable.load → tableRestval SiennaTable.load = "NA") :=
  C8_schema_placeholder SiennaTable.load [] [[("name", Value.str "L1")]] 0 "bus_id"
    (by decide) (by decide)

/-! ### Time-series pointers (`create_timeseries_pointers`) -/

/-- One time-series metadata entry of a component: the variable name and the
resolution in seconds. -/
structure TSMetadata where
  variable_name : String
  resolution_seconds : ℕ
deriving DecidableEq, Repr

/-- A component of the store with its attached time-series metadata
(`list_time_series_metadata`). -/
structure TSComponent where
  kind : String
  name : String
  ts_metadata : List TSMetadata
deriving DecidableEq, Repr

/-- Modelled from the spec: `system.has_time_series` (infrasys, not under
src/): whether the component carries at least one time series — its metadata
list is non-empty. -/
def hasTimeSeries (c : TSComponent) : Bool := !c.ts_metadata.isEmpty

/-- One pointer record of `timeseries_pointers.json`. -/
structure PointerRecord where
  category : String
  component_name : String
  data_file : String
  normalization_factor : String
  resolution : ℕ
  name : String
  scaling_factor_multiplier_module : String
  scaling_factor_multiplier : String
deriving DecidableEq, Repr

/-- The pointer record built for one `(component, metadata)` pair:
`data_file` is `output_folder / "Data" /
f"{kind}_{variable_name}_{scenario}_{year}.csv"`. -/
def mkPointer (outputFolder scenarioName : String) (referenceYear : ℕ)
    (c : TSComponent) (m : TSMetadata) : PointerRecord :=
  { category := c.kind,
    component_name := c.name,
    data_file := outputFolder ++ "/" ++ "Data" ++ "/" ++ c.kind ++ "_" ++
      m.variable_name ++ "_" ++ scenarioName ++ "_" ++ natToDec referenceYear ++
      ".csv",
    normalization_factor := "MAX",
    resolution := m.resolution_seconds,
    name := m.variable_name,
    scaling_factor_multiplier_module := "PowerSystems",
    scaling_factor_multiplier := "get_max_active_power" }

/-- `create_timeseries_pointers`: for every component carrying time series
(in store order) and every metadata entry attached to it (in list order),
append one pointer record. -/
def create_timeseries_pointers (outputFolder scenarioName : String)
    (referenceYear : ℕ) (components : List TSComponent) : List PointerRecord :=
  (components.filter hasTimeSeries).flatMap fun c =>
    c.ts_metadata.map fun m => mkPointer outputFolder scenarioName referenceYear c m

/-- The `(component, metadata)` pairs, in iteration order. -/
def tsPairs (components : List TSComponent) : List (TSComponent × TSMetadata) :=
  (components.filter hasTimeSeries).flatMap fun c =>
    c.ts_metadata.map fun m => (c, m)

/-- **C9**: `create_timeseries_pointers` emits exactly the image of the
`(component, metadata)` pair list — one record per pair, in iteration order,
never two for the same pair — its length is the total metadata count over
components carrying time series, and each record carries the component kind
as category, the component name, the file path derived from kind, variable
name, scenario name and reference year, the resolution in seconds, the
series name, and the two fixed scaling-factor annotation fields. -/
theorem C9_timeseries_pointers (outputFolder scenarioName : String)
    (referenceYear : ℕ) (components : List TSComponent) :
    create_timeseries_pointers outputFolder scenarioName referenceYear components =
      (tsPairs components).map
        (fun p => mkPointer outputFolder scenarioName referenceYear p.1 p.2) ∧
    (create_timeseries_pointers outputFolder scenarioName referenceYear
        components).length =
      ((components.filter hasTimeSeries).map
        (fun c => c.ts_metadata.length)).sum ∧
    ∀ c m,
      (mkPointer outputFolder scenarioName referenceYear c m).category = c.kind ∧
      (mkPointer outputFolder scenarioName referenceYear c m).component_name =
        c.name ∧
      (mkPointer outputFolder scenarioName referenceYear c m).data_file =
        outputFolder ++ "/" ++ "Data" ++ "/" ++ c.kind ++ "_" ++
          m.variable_name ++ "_" ++ scenarioName ++ "_" ++
          natToDec referenceYear ++ ".csv" ∧
      (mkPointer outputFolder scenarioName referenceYear c m).resolution =
        m.resolution_seconds ∧
      (mkPointer outputFolder scenarioName referenceYear c m).name =
        m.variable_name ∧
      (mkPointer outputFolder scenarioName referenceYear c m).scaling_factor_multiplier_module =
        "PowerSystems" ∧
      (mkPointer outputFolder scenarioName referenceYear c m).scaling_factor_multiplier =
        "get_max_active_power" := by
  refine ⟨?_, ?_, ?_⟩
  · unfold create_timeseries_pointers tsPairs
    rw [List.map_flatMap]
    simp [List.map_map, Function.comp_def]
  · unfold create_timeseries_pointers
    rw [List.length_flatMap]
    simp [Function.comp_def]
  · intro c m
    exact ⟨rfl, rfl, rfl, rfl, rfl, rfl, rfl⟩

end R2X
